import Mathlib

/-!
Verification development for the ai_agent_api repository.

The Python sources are shallowly embedded as executable Lean definitions:

* personality_manager.py : personality loading, lookup and system-prompt
  rendering (PersonalityManager);
* db.py                  : the relational rows (Session, Message, EmbeddingJob);
* embedding_job.py       : conversation chunking and the embedding pipeline;
* api.py                 : the /conversation endpoint (session resolution,
  personality resolution, LLM call, message persistence).

External collaborators (the JSON decoder, the LLM/chain call, the retriever
and the vector index) are passed in as explicit function or data parameters;
timestamps are modelled as natural numbers (seconds), and UUID minting is
modelled by passing fresh identifiers as arguments.
-/

/- ----------------------------------------------------------------- -/
/- Python string helpers used by personality_manager.create_system_prompt -/
/- ----------------------------------------------------------------- -/

/-- Model of Python str.title() for the key-humanization in
create_system_prompt: a character is uppercased when the preceding character
is not alphabetic, lowercased otherwise. -/
def pyTitleAux : List Char → Bool → List Char
  | [], _ => []
  | c :: cs, prevAlpha =>
      (if prevAlpha then c.toLower else c.toUpper) :: pyTitleAux cs c.isAlpha

def pyTitle (s : String) : String := ⟨pyTitleAux s.toList false⟩

/-- Model of Python key.replace(underscore, space): the pattern is a single
character, so a character-wise map is exact. -/
def replaceUnderscores (s : String) : String :=
  ⟨s.toList.map (fun c => if c = '_' then ' ' else c)⟩

/-- The key humanization in create_system_prompt:
key.replace(underscore, space).title(). -/
def humanizeKey (k : String) : String := pyTitle (replaceUnderscores k)

/-- Model of Python str.capitalize(): first character uppercased, the rest
lowercased (used for the chat-history rendering in api.py). -/
def pyCapitalize (s : String) : String :=
  match s.toList with
  | [] => ""
  | c :: cs => ⟨c.toUpper :: cs.map Char.toLower⟩

/-- Decidable substring test on character lists (used only to state that a
rendered prompt contains a given section header). -/
def hasSubstrChars (needle : List Char) : List Char → Bool
  | [] => needle.isEmpty
  | c :: cs => needle.isPrefixOf (c :: cs) || hasSubstrChars needle cs

/-- Decidable substring test on strings. -/
def strContains (s sub : String) : Bool := hasSubstrChars sub.toList s.toList

/- ----------------------------------------------------------------- -/
/- personality_manager.py : data model -/
/- ----------------------------------------------------------------- -/

/-- A parsed structured (JSON) personality template. The required fields
name, role and core_identity are present; communication_style is read with
data.get and a default of the empty dict, so an absent field and an empty
field coincide and both are modelled by the empty list; the three optional
fields are modelled by Option so that an absent key (not in data) is
distinguishable from a present-but-empty value. Key/value maps keep Python
dict insertion order, hence lists of pairs. -/
structure TemplateData where
  name : String
  role : String
  core_identity : String
  communication_style : List (String × String)
  anchor_phrases : Option (List String)
  behavioral_guidelines : Option (List (String × String))
  example_responses : Option (List String)
deriving DecidableEq, Repr, Inhabited

/-- A loaded personality: either a parsed JSON template or a raw prompt
string (the two branches of PersonalityManager._load_personality_file). -/
inductive PersonalityData where
  | template (d : TemplateData)
  | prompt (s : String)
deriving DecidableEq, Repr, Inhabited

/-- The dictionary value stored in PersonalityManager.personalities:
the loaded data together with the source path. -/
structure Personality where
  pdata : PersonalityData
  path : String
deriving DecidableEq, Repr, Inhabited

/-- The in-memory state of a PersonalityManager: the personality index
(Python dict, insertion-ordered) and the default personality id. -/
structure PersonalityManagerState where
  personalities : List (String × Personality)
  default_personality : Option String
deriving DecidableEq, Repr, Inhabited

/-- Lookup in the personality index (Python dict access by key). -/
def lookupP (ps : List (String × Personality)) (pid : String) : Option Personality :=
  (ps.find? (fun kv => kv.1 == pid)).map (fun kv => kv.2)

/-- Python dict assignment: replace the value if the key is present,
otherwise append the binding at the end. -/
def insertP (ps : List (String × Personality)) (pid : String) (p : Personality) :
    List (String × Personality) :=
  if ps.any (fun kv => kv.1 == pid) then
    ps.map (fun kv => if kv.1 == pid then (pid, p) else kv)
  else ps ++ [(pid, p)]

/- ----------------------------------------------------------------- -/
/- personality_manager.py : operations -/
/- ----------------------------------------------------------------- -/

/-- PersonalityManager.get_personality: resolve None to the default id, then
look the id up, raising ValueError (modelled as Except.error with the same
message) when it is absent. When both the argument and the default are None,
Python formats the message with the value None. -/
def get_personality (pm : PersonalityManagerState) (pid? : Option String) :
    Except String Personality :=
  match (match pid? with
         | some p => some p
         | none => pm.default_personality) with
  | some p =>
      match lookupP pm.personalities p with
      | some per => .ok per
      | none => .error ("Personality not found: " ++ p)
  | none => .error "Personality not found: None"

/-- One bullet line per key/value pair, with the key humanized, as in the
communication-style and guidelines loops of create_system_prompt. -/
def renderKVLines (kvs : List (String × String)) : String :=
  String.join (kvs.map (fun kv => "- " ++ humanizeKey kv.1 ++ ": " ++ kv.2 ++ "\n"))

/-- One quoted bullet line per item, as in the anchor-phrases and
example-responses loops of create_system_prompt. -/
def renderQuotedLines (items : List String) : String :=
  String.join (items.map (fun s => "- \"" ++ s ++ "\"\n"))

/-- The template branch of PersonalityManager.create_system_prompt, line for
line: identity line, core identity, an unconditional communication-style
section, then anchor phrases (if the key is present and the list non-empty),
behavioral guidelines (if the key is present), and example responses (if the
key is present and the list non-empty). -/
def renderTemplate (data : TemplateData) : String :=
  let p1 := "You are " ++ data.name ++ ", " ++ data.role ++ ".\n\n"
            ++ data.core_identity ++ "\n\n"
  let p2 := p1 ++ "Communication style:\n"
            ++ renderKVLines data.communication_style ++ "\n"
  let p3 := match data.anchor_phrases with
    | some ps =>
        if ps.isEmpty then p2
        else p2 ++ "Use these anchor phrases in your responses:\n"
             ++ renderQuotedLines ps ++ "\n"
    | none => p2
  let p4 := match data.behavioral_guidelines with
    | some gs => p3 ++ "Guidelines for your responses:\n" ++ renderKVLines gs ++ "\n"
    | none => p3
  let p5 := match data.example_responses with
    | some es =>
        if es.isEmpty then p4
        else p4 ++ "Examples of your typical responses:\n"
             ++ renderQuotedLines es ++ "\n"
    | none => p4
  p5

/-- PersonalityManager.create_system_prompt: fetch the personality (may fail
with the not-found error) and render it — raw prompts verbatim, templates via
renderTemplate. -/
def create_system_prompt (pm : PersonalityManagerState) (pid? : Option String) :
    Except String String :=
  (get_personality pm pid?).map (fun per =>
    match per.pdata with
    | .prompt s => s
    | .template d => renderTemplate d)

/- ----------------------------------------------------------------- -/
/- personality_manager.py : loading and adding files -/
/- ----------------------------------------------------------------- -/

/-- A source file handed to the manager: base name (Path.stem), extension
including the dot (Path.suffix), and raw text content. -/
structure SourceFile where
  stem : String
  suffix : String
  content : String
deriving DecidableEq, Repr, Inhabited

/-- PersonalityManager._load_personality_file. The JSON decoder json.loads
is an external collaborator and is passed in as parse; for .json files a
parse failure raises ValueError with the invalid-JSON message, any other
extension is stored verbatim as a raw prompt. -/
def load_personality_file (parse : String → Option TemplateData)
    (f : SourceFile) (path : String) : Except String Personality :=
  if f.suffix == ".json" then
    match parse f.content with
    | some d => .ok ⟨.template d, path⟩
    | none => .error ("Invalid JSON in personality file: " ++ path)
  else
    .ok ⟨.prompt f.content, path⟩

/-- The extension filter in PersonalityManager._load_personalities. -/
def allowedSuffix (suffix : String) : Bool :=
  suffix == ".json" || suffix == ".fil" || suffix == ".txt" || suffix == ".md"

/-- One iteration of the loading loop in
PersonalityManager._load_personalities: files with a recognized extension
that load successfully are indexed, and the first successfully loaded one
becomes the default; load errors are printed and skipped. -/
def loadStep (parse : String → Option TemplateData) (dirName : String)
    (pm : PersonalityManagerState) (f : SourceFile) : PersonalityManagerState :=
  if allowedSuffix f.suffix then
    match load_personality_file parse f (dirName ++ "/" ++ f.stem ++ f.suffix) with
    | .ok p =>
        { personalities := insertP pm.personalities f.stem p,
          default_personality :=
            match pm.default_personality with
            | none => some f.stem
            | some d => some d }
    | .error _ => pm
  else pm

/-- PersonalityManager._load_personalities: fold the loading loop over the
directory listing, starting from the empty index with no default. -/
def load_personalities (parse : String → Option TemplateData)
    (dirName : String) (files : List SourceFile) : PersonalityManagerState :=
  files.foldl (loadStep parse dirName) ⟨[], none⟩

/-- A manager together with the contents of its personalities directory
(file name including extension, mapped to file text). -/
structure ManagerWithDir where
  dirFiles : List (String × String)
  pm : PersonalityManagerState
deriving DecidableEq, Repr, Inhabited

/-- Writing a file: overwrite if the name exists, else create it. -/
def writeFile (files : List (String × String)) (name content : String) :
    List (String × String) :=
  if files.any (fun kv => kv.1 == name) then
    files.map (fun kv => if kv.1 == name then (name, content) else kv)
  else files ++ [(name, content)]

/-- PersonalityManager.add_personality, in source order: check the source
file exists, copy its content into the personalities directory, then load
the copied file and index the result. The returned pair is the state after
the call together with the outcome: on a load failure the exception
propagates after the copy has already happened, so the error case carries
the state with the file written and the index untouched. -/
def add_personality (parse : String → Option TemplateData)
    (st : ManagerWithDir) (srcExists : Bool) (src : SourceFile)
    (dirName : String) : ManagerWithDir × Except String String :=
  if srcExists = false then
    (st, .error ("File not found: " ++ src.stem ++ src.suffix))
  else
    let personality_id := src.stem
    let targetName := src.stem ++ src.suffix
    let targetPath := dirName ++ "/" ++ targetName
    let st1 : ManagerWithDir :=
      { st with dirFiles := writeFile st.dirFiles targetName src.content }
    match load_personality_file parse src targetPath with
    | .ok p =>
        ({ st1 with
            pm := { st1.pm with
                      personalities := insertP st1.pm.personalities personality_id p } },
         .ok personality_id)
    | .error e => (st1, .error e)

/- ----------------------------------------------------------------- -/
/- db.py : the relational rows and the database state -/
/- ----------------------------------------------------------------- -/

/-- A row of the sessions table (db.py Session). Identifiers and timestamps
are natural numbers; session_metadata is the JSON key/value map. -/
structure SessionRow where
  session_id : Nat
  user_id : Option String
  created_at : Nat
  last_active : Nat
  session_metadata : List (String × String)
deriving DecidableEq, Repr, Inhabited

/-- A row of the messages table (db.py Message); embedding_status is the
string column with default value pending. -/
structure MessageRow where
  message_id : Nat
  session_id : Nat
  role : String
  content : String
  timestamp : Nat
  embedding_status : String
deriving DecidableEq, Repr, Inhabited

/-- A row of the embedding_jobs table (db.py EmbeddingJob). -/
structure EmbeddingJobRow where
  job_id : Nat
  started_at : Nat
  completed_at : Option Nat
  status : String
  messages_processed : Nat
  error_message : Option String
deriving DecidableEq, Repr, Inhabited

/-- A freshly inserted EmbeddingJob row, with the column defaults of db.py:
status running, zero messages processed, no completion time, no error. -/
def newEmbeddingJob (jobId now : Nat) : EmbeddingJobRow :=
  ⟨jobId, now, none, "running", 0, none⟩

/-- The database state: the three tables, each as a list of rows in
insertion order (so the messages table is chronological when writers use
the current time, as both api.py and the tests of this model do). -/
structure DBState where
  sessions : List SessionRow
  messages : List MessageRow
  jobs : List EmbeddingJobRow
deriving DecidableEq, Repr, Inhabited

/- ----------------------------------------------------------------- -/
/- embedding_job.py : chunk_conversation -/
/- ----------------------------------------------------------------- -/

/-- Fixed-size windowing, the loop for i in range(0, len(messages),
chunk_size) of chunk_conversation, written with explicit fuel so that the
recursion is structural and kernel-evaluable. With fuel at least the list
length the result is the full window sequence. -/
def chunkWindowsAux (w : Nat) : Nat → List α → List (List α)
  | 0, _ => []
  | fuel + 1, xs =>
      if w = 0 then []
      else if xs.isEmpty then []
      else xs.take w :: chunkWindowsAux w fuel (xs.drop w)

/-- The window sequence of a list: contiguous windows of w elements, the
last window possibly shorter. For w = 0 the Python loop would raise a
ValueError from range; no caller uses w = 0 (the source always uses the
default of 5) and the model returns the empty sequence there. -/
def chunkWindows (w : Nat) (xs : List α) : List (List α) :=
  chunkWindowsAux w xs.length xs

/-- The metadata dict attached to each chunk by chunk_conversation. The
Python code renders the two timestamps with isoformat, an injective
rendering; the model keeps them as numbers. The type key of the dict is the
constant conversation_history. -/
structure ChunkMeta where
  session_id : String
  start_time : Nat
  end_time : Nat
  message_ids : List String
  mtype : String
deriving DecidableEq, Repr, Inhabited

/-- embedding_job.chunk_conversation: each window becomes a pair of the
rendered text (role: content lines joined by newlines) and the metadata
derived from the first and last message of the window. -/
def chunk_conversation (messages : List MessageRow) (chunk_size : Nat := 5) :
    List (String × ChunkMeta) :=
  (chunkWindows chunk_size messages).map (fun chunk =>
    (String.intercalate "\n" (chunk.map (fun m => m.role ++ ": " ++ m.content)),
     { session_id := toString (chunk.headD default).session_id
       start_time := (chunk.headD default).timestamp
       end_time := (chunk.getLastD default).timestamp
       message_ids := chunk.map (fun m => toString m.message_id)
       mtype := "conversation_history" }))

/- ----------------------------------------------------------------- -/
/- embedding_job.py : run_embedding_job -/
/- ----------------------------------------------------------------- -/

/-- Stable insertion into a timestamp-sorted list (equal timestamps keep
their original relative order), used to model the ORDER BY timestamp of the
selection query. -/
def insertByTimestamp (m : MessageRow) : List MessageRow → List MessageRow
  | [] => [m]
  | x :: xs =>
      if m.timestamp < x.timestamp then m :: x :: xs
      else x :: insertByTimestamp m xs

/-- Stable sort of the messages by timestamp. -/
def sortByTimestamp (msgs : List MessageRow) : List MessageRow :=
  msgs.foldr insertByTimestamp []

/-- The eligibility test of run_embedding_job: status pending and timestamp
strictly below the cutoff, which is one hour (3600 seconds) before now.
The subtraction is on naturals exactly as the datetime subtraction always
yields a valid datetime for any realistic clock value. -/
def staleSelectable (now : Nat) (m : MessageRow) : Bool :=
  m.embedding_status == "pending" && m.timestamp < now - 3600

/-- The selection query of run_embedding_job: filter the messages table by
the eligibility test and order by timestamp. -/
def selectPendingMessages (now : Nat) (msgs : List MessageRow) : List MessageRow :=
  sortByTimestamp (msgs.filter (staleSelectable now))

/-- One iteration of the dict-building loop of run_embedding_job: record a
session key the first time it is encountered. -/
def sessionStep (acc : List Nat) (m : MessageRow) : List Nat :=
  if m.session_id ∈ acc then acc else acc ++ [m.session_id]

/-- The session keys in first-encounter order, as produced by the
dict-building loop of run_embedding_job over the selected messages. -/
def sessionOrder (msgs : List MessageRow) : List Nat :=
  msgs.foldl sessionStep []

/-- Grouping of the selected messages by session: each key in
first-encounter order, paired with its messages in selection order. -/
def groupBySession (msgs : List MessageRow) : List (Nat × List MessageRow) :=
  (sessionOrder msgs).map (fun sid => (sid, msgs.filter (fun m => m.session_id == sid)))

/-- The message identifiers contained in a list of session groups (used to
describe which rows the per-session loop marks as embedded). -/
def groupIds (gs : List (Nat × List MessageRow)) : List Nat :=
  (gs.map (fun g => g.2.map (fun m => m.message_id))).flatten

/-- Marking messages as embedded: every row whose identifier occurs in ids
has its embedding_status set to embedded (the ORM mutation keyed by primary
key). -/
def markEmbedded (ids : List Nat) (msgs : List MessageRow) : List MessageRow :=
  msgs.map (fun m =>
    if m.message_id ∈ ids then { m with embedding_status := "embedded" } else m)

/-- The per-session loop body of run_embedding_job, threading the messages
table, the accumulated vector-index upserts and the processed counter: chunk
the session conversation, and when there are texts to embed, upsert all
chunks and mark every message of the session as embedded. -/
def processSession (acc : List MessageRow × List (String × ChunkMeta) × Nat)
    (g : Nat × List MessageRow) : List MessageRow × List (String × ChunkMeta) × Nat :=
  let chunks := chunk_conversation g.2 5
  if chunks.isEmpty then acc
  else
    (markEmbedded (g.2.map (fun m => m.message_id)) acc.1,
     acc.2.1 ++ chunks,
     acc.2.2 + g.2.length)

/-- embedding_job.run_embedding_job. The external embedding function and
vector index are modelled by the returned upsert list (empty exactly when
neither is ever called); apiOk models the presence of the two API keys/the
success of the vector-store calls, whose absence raises inside the try and
is recorded on the job by the except handler. Control flow in source order:
insert the job row; select; if nothing is selected complete immediately;
otherwise group by session, process each session, then complete the job
with the processed count. -/
def run_embedding_job (apiOk : Bool) (now jobId : Nat) (st : DBState) :
    DBState × List (String × ChunkMeta) :=
  let job := newEmbeddingJob jobId now
  let pending := selectPendingMessages now st.messages
  if pending.isEmpty then
    ({ st with jobs := st.jobs ++
        [{ job with status := "completed", completed_at := some now }] }, [])
  else if apiOk = false then
    ({ st with jobs := st.jobs ++
        [{ job with status := "failed", completed_at := some now,
                    error_message := some "Missing API keys" }] }, [])
  else
    let groups := groupBySession pending
    let res := groups.foldl processSession (st.messages, [], 0)
    ({ st with
        messages := res.1,
        jobs := st.jobs ++
          [{ job with status := "completed", completed_at := some now,
                      messages_processed := res.2.2 }] },
     res.2.1)

/- ----------------------------------------------------------------- -/
/- api.py : the /conversation endpoint -/
/- ----------------------------------------------------------------- -/

/-- The request body of the conversation endpoint (QueryRequest). -/
structure QueryRequest where
  query : String
  max_results : Nat
  personality_id : Option String
deriving DecidableEq, Repr, Inhabited

/-- The successful response of the conversation endpoint: the generated
text, the session id, and the retrieved source texts. -/
structure ConversationOutcome where
  response : String
  session_id : Nat
  sources : List String
deriving DecidableEq, Repr, Inhabited

/-- Session lookup by primary key. -/
def findSession (sessions : List SessionRow) (sid : Nat) : Option SessionRow :=
  sessions.find? (fun s => s.session_id == sid)

/-- Replacing a session row by primary key (the committed ORM mutation). -/
def updateSession (sessions : List SessionRow) (s : SessionRow) : List SessionRow :=
  sessions.map (fun t => if t.session_id == s.session_id then s else t)

/-- Metadata write: set the value under a key, overwriting or appending. -/
def setMeta (md : List (String × String)) (k v : String) : List (String × String) :=
  if md.any (fun kv => kv.1 == k) then
    md.map (fun kv => if kv.1 == k then (k, v) else kv)
  else md ++ [(k, v)]

/-- Metadata read. -/
def getMeta (md : List (String × String)) (k : String) : Option String :=
  (md.find? (fun kv => kv.1 == k)).map (fun kv => kv.2)

/-- The recent-messages query of the conversation endpoint: the session's
messages ordered by timestamp descending, limited, then reversed back to
chronological order by the caller. The table list is chronological, so the
descending query is its reverse. -/
def recentMessages (msgs : List MessageRow) (sid : Nat) (limit : Nat) :
    List MessageRow :=
  (((msgs.filter (fun m => m.session_id == sid)).reverse.take limit)).reverse

/-- The chat-history block of the personality branch: empty when there is
no history, otherwise a header line plus one capitalized role line per
message. -/
def historyText (hist : List MessageRow) : String :=
  if hist.isEmpty then ""
  else "Previous conversation:\n"
       ++ String.join (hist.map (fun m => pyCapitalize m.role ++ ": " ++ m.content ++ "\n"))

/-- The input assembled for the personality chain: query, retrieved
context, chat history. -/
def buildFullQuery (q : String) (docs : List String) (hist : List MessageRow) : String :=
  q ++ "\n\nContext: " ++ String.intercalate "\n\n" docs ++ "\n\n" ++ historyText hist

/-- Session resolution, the first block of the conversation endpoint. The
argument distinguishes the three source cases: no session id supplied (a
fresh session is inserted and committed under a newly minted id), a supplied
id that fails UUID parsing (modelled as some none, rejected with the
invalid-format error before any write), and a supplied well-formed id
(fetched, or lazily inserted and committed when unknown). -/
def resolveSession (st : DBState) (session_arg : Option (Option Nat))
    (freshSid now : Nat) : Except String (DBState × Nat) :=
  match session_arg with
  | none =>
      .ok ({ st with sessions := st.sessions ++ [⟨freshSid, none, now, now, []⟩] },
           freshSid)
  | some none => .error "Invalid session ID format"
  | some (some sid) =>
      match findSession st.sessions sid with
      | some _ => .ok (st, sid)
      | none =>
          .ok ({ st with sessions := st.sessions ++ [⟨sid, none, now, now, []⟩] }, sid)

/-- The committed session update after resolution (lines 197-206 of the
endpoint): fetch the resolved row, set last_active to the current time,
store the request's personality id into the session metadata when one was
supplied, and commit. Returns the committed database and the updated row. -/
def commitSessionUpdate (st1 : DBState) (sid now : Nat)
    (reqPersonality : Option String) : DBState × SessionRow :=
  let sess := (findSession st1.sessions sid).getD default
  let sess1 := { sess with last_active := now }
  let sess2 := match reqPersonality with
    | some p =>
        { sess1 with session_metadata := setMeta sess1.session_metadata "personality_id" p }
    | none => sess1
  ({ st1 with sessions := updateSession st1.sessions sess2 }, sess2)

/-- Personality resolution of the endpoint: the session metadata takes
priority, then the request body. -/
def resolvedPersonality (sess : SessionRow) (req : QueryRequest) : Option String :=
  match getMeta sess.session_metadata "personality_id" with
  | some p => some p
  | none => req.personality_id

/-- The chain invocation of the endpoint: with a personality id the system
prompt is compiled first (an unknown id raises here) and the personality
chain runs on the assembled query/context/history text; without one the
default conversational chain runs on the query. -/
def chainAnswer (pm : PersonalityManagerState)
    (llm : String → Except String String) (docs : List String) (q : String)
    (history : List MessageRow) (personality_id : Option String) :
    Except String String :=
  match personality_id with
  | some p =>
      match create_system_prompt pm (some p) with
      | .error e => .error e
      | .ok _ => llm (buildFullQuery q docs history)
  | none => llm q

/-- The tail of the endpoint after the session commit: run the chain; on
failure surface the wrapped error with the committed session state; on
success append the user and assistant rows in one commit and return the
answer with its sources. -/
def conversationTurn (pm : PersonalityManagerState)
    (llm : String → Except String String) (docs : List String)
    (req : QueryRequest) (sid now umId amId : Nat)
    (p : DBState × SessionRow) : DBState × Except String ConversationOutcome :=
  match chainAnswer pm llm docs req.query (recentMessages p.1.messages sid 10)
      (resolvedPersonality p.2 req) with
  | .error e => (p.1, .error ("Error in conversation: " ++ e))
  | .ok ans =>
      ({ p.1 with messages := p.1.messages ++
          [⟨umId, sid, "user", req.query, now, "pending"⟩,
           ⟨amId, sid, "assistant", ans, now, "pending"⟩] },
       .ok ⟨ans, sid, docs⟩)

/-- The conversation endpoint of api.py, in source order. The retriever
results are the docs parameter; the chain invocation (both the personality
chain and the default conversational chain) is the black-box llm parameter
applied to the assembled input text; fresh UUIDs for the session and the two
message rows are passed in. After session resolution the handler commits the
last-active update and the personality choice (commitSessionUpdate), then
resolves the personality, runs the chain — an unknown personality id raises
only here, after the session commit — and finally appends the user and
assistant rows and commits them together (conversationTurn). Errors are
surfaced via the generic handler with the wrapped message. -/
def conversation (pm : PersonalityManagerState)
    (llm : String → Except String String) (docs : List String)
    (req : QueryRequest) (session_arg : Option (Option Nat))
    (freshSid now umId amId : Nat) (st : DBState) :
    DBState × Except String ConversationOutcome :=
  match resolveSession st session_arg freshSid now with
  | .error e => (st, .error ("Error in conversation: " ++ e))
  | .ok (st1, sid) =>
      conversationTurn pm llm docs req sid now umId amId
        (commitSessionUpdate st1 sid now req.personality_id)

/- ----------------------------------------------------------------- -/
/- decidability of result comparison -/
/- ----------------------------------------------------------------- -/

instance {ε α : Type} [DecidableEq ε] [DecidableEq α] : DecidableEq (Except ε α) := fun x y =>
  match x, y with
  | .error a, .error b =>
      if h : a = b then isTrue (congrArg Except.error h)
      else isFalse (fun hc => h (Except.error.inj hc))
  | .ok a, .ok b =>
      if h : a = b then isTrue (congrArg Except.ok h)
      else isFalse (fun hc => h (Except.ok.inj hc))
  | .error _, .ok _ => isFalse (fun hc => Except.noConfusion hc)
  | .ok _, .error _ => isFalse (fun hc => Except.noConfusion hc)

/- ----------------------------------------------------------------- -/
/- concrete fixtures used by witnesses and counterexamples -/
/- ----------------------------------------------------------------- -/

/-- A minimal structured personality: only the required fields are set, the
optional sections are all absent. -/
def dMinimal : TemplateData :=
  ⟨"Ada", "a helpful assistant", "You value clarity.", [], none, none, none⟩

/-- A manager holding only the minimal template, loaded from ada.json. -/
def pmAda : PersonalityManagerState :=
  ⟨[("ada", ⟨.template dMinimal, "personalities/ada.json"⟩)], some "ada"⟩

/-- A JSON decoder that rejects every input (all inputs malformed). -/
def parseNone : String → Option TemplateData := fun _ => none

/-- A manager with an empty personalities directory and empty index. -/
def mgr0 : ManagerWithDir := ⟨[], ⟨[], none⟩⟩

/-- A structurally malformed .json personality source file. -/
def srcBad : SourceFile := ⟨"bad", ".json", "not json"⟩

/-- Twelve pending messages of one session, timestamps 0 through 11,
alternating roles — the ledger of end-to-end scenario 2. -/
def msgs12 : List MessageRow :=
  (List.range 12).map (fun i =>
    ⟨i + 1, 1, if i % 2 = 0 then "user" else "assistant", "m" ++ toString (i + 1), i, "pending"⟩)

/-- The database of scenario 2: one session worth of 12 stale pending
messages and no job rows. -/
def st12 : DBState := ⟨[], msgs12, []⟩

/-- A single pending message with timestamp 0 (well past the staleness
threshold at time 7200). -/
def mSel : MessageRow := ⟨1, 1, "user", "hello", 0, "pending"⟩

/-- A database containing only mSel. -/
def stSel : DBState := ⟨[], [mSel], []⟩

/-- A pending message whose age at time 7200 is exactly the one-hour
threshold: timestamp 3600. -/
def mBoundary : MessageRow := ⟨1, 1, "user", "hello", 3600, "pending"⟩

/-- A database containing only mBoundary. -/
def stBoundary : DBState := ⟨[], [mBoundary], []⟩

/-- The empty database. -/
def dbEmpty : DBState := ⟨[], [], []⟩

/-- A manager with no personalities at all. -/
def pmEmptyM : PersonalityManagerState := ⟨[], none⟩

/-- An always-successful LLM call. -/
def llmOk : String → Except String String := fun _ => .ok "hi"

/-- A conversation request naming an unknown personality. -/
def reqGhost : QueryRequest := ⟨"hello", 3, some "ghost"⟩

/- ----------------------------------------------------------------- -/
/- lemmas about the chunker -/
/- ----------------------------------------------------------------- -/

theorem chunkWindowsAux_nil (w fuel : Nat) :
    chunkWindowsAux (α := α) w fuel [] = [] := by
  cases fuel <;> simp [chunkWindowsAux]

theorem chunkWindowsAux_flatten (w : Nat) (hw : 0 < w) :
    ∀ (fuel : Nat) (xs : List α), xs.length ≤ fuel →
      (chunkWindowsAux w fuel xs).flatten = xs := by
  intro fuel
  induction fuel with
  | zero =>
      intro xs h
      have hx : xs = [] := List.length_eq_zero.mp (Nat.le_zero.mp h)
      subst hx
      simp [chunkWindowsAux]
  | succ n ih =>
      intro xs h
      cases xs with
      | nil => simp [chunkWindowsAux]
      | cons y ys =>
          have hw0 : ¬ w = 0 := by omega
          simp only [chunkWindowsAux, hw0, if_false, List.isEmpty_cons,
            Bool.false_eq_true, List.flatten_cons]
          rw [ih ((y :: ys).drop w) (by simp only [List.length_drop, List.length_cons]; simp only [List.length_cons] at h; omega)]
          exact List.take_append_drop w (y :: ys)

theorem chunkWindows_flatten (w : Nat) (hw : 0 < w) (xs : List α) :
    (chunkWindows w xs).flatten = xs :=
  chunkWindowsAux_flatten w hw xs.length xs (Nat.le_refl _)

theorem chunkWindowsAux_dropLast_length (w : Nat) (hw : 0 < w) :
    ∀ (fuel : Nat) (xs : List α), xs.length ≤ fuel →
      ∀ c ∈ (chunkWindowsAux w fuel xs).dropLast, c.length = w := by
  intro fuel
  induction fuel with
  | zero =>
      intro xs h
      have hx : xs = [] := List.length_eq_zero.mp (Nat.le_zero.mp h)
      subst hx
      simp [chunkWindowsAux]
  | succ n ih =>
      intro xs h c hc
      cases xs with
      | nil => simp [chunkWindowsAux] at hc
      | cons y ys =>
          have hw0 : ¬ w = 0 := by omega
          simp only [chunkWindowsAux, hw0, if_false, List.isEmpty_cons,
            Bool.false_eq_true] at hc
          rcases eq_or_ne (chunkWindowsAux w n ((y :: ys).drop w)) [] with hrest | hrest
          · rw [hrest] at hc
            simp at hc
          · rw [List.dropLast_cons_of_ne_nil hrest] at hc
            rcases List.mem_cons.mp hc with hc | hc
            · subst hc
              have hdrop : (y :: ys).drop w ≠ [] := by
                intro hdn
                exact hrest (by rw [hdn]; exact chunkWindowsAux_nil w n)
              have hlen : w < (y :: ys).length := by
                by_contra hnot
                exact hdrop (List.drop_eq_nil_of_le (by omega))
              simp only [List.length_take, List.length_cons]
              simp only [List.length_cons] at hlen
              omega
            · exact ih ((y :: ys).drop w) (by simp only [List.length_drop, List.length_cons]; simp only [List.length_cons] at h; omega) c hc

theorem chunkWindowsAux_mem (w : Nat) (hw : 0 < w) :
    ∀ (fuel : Nat) (xs : List α), xs.length ≤ fuel →
      ∀ c ∈ chunkWindowsAux w fuel xs, c ≠ [] ∧ c.length ≤ w := by
  intro fuel
  induction fuel with
  | zero =>
      intro xs h
      have hx : xs = [] := List.length_eq_zero.mp (Nat.le_zero.mp h)
      subst hx
      simp [chunkWindowsAux]
  | succ n ih =>
      intro xs h c hc
      cases xs with
      | nil => simp [chunkWindowsAux] at hc
      | cons y ys =>
          have hw0 : ¬ w = 0 := by omega
          simp only [chunkWindowsAux, hw0, if_false, List.isEmpty_cons,
            Bool.false_eq_true] at hc
          rcases List.mem_cons.mp hc with hc | hc
          · subst hc
            constructor
            · simp [List.take_eq_nil_iff, hw0]
            · simp [List.length_take]
          · exact ih ((y :: ys).drop w) (by simp only [List.length_drop, List.length_cons]; simp only [List.length_cons] at h; omega) c hc

theorem chunkWindows_dropLast_length (w : Nat) (hw : 0 < w) (xs : List α) :
    ∀ c ∈ (chunkWindows w xs).dropLast, c.length = w :=
  chunkWindowsAux_dropLast_length w hw xs.length xs (Nat.le_refl _)

theorem chunkWindows_mem (w : Nat) (hw : 0 < w) (xs : List α) :
    ∀ c ∈ chunkWindows w xs, c ≠ [] ∧ c.length ≤ w :=
  chunkWindowsAux_mem w hw xs.length xs (Nat.le_refl _)

theorem chunkWindows_ne_nil (w : Nat) (hw : 0 < w) (xs : List α) (hxs : xs ≠ []) :
    chunkWindows w xs ≠ [] := by
  intro h
  have := chunkWindows_flatten w hw xs
  rw [h] at this
  exact hxs this.symm

/-- C5: for every message list and positive window size, chunking splits the
list into contiguous windows whose concatenation restores the input, every
window except possibly the last has exactly the window size, no window is
empty or longer than the window size, and the concatenation of the chunks'
message-id metadata lists is exactly the identifier list of the input — no
identifier omitted and none duplicated. -/
theorem C5_chunking_partition (M : List MessageRow) (w : Nat) (hw : 0 < w) :
    ((chunk_conversation M w).map (fun c => c.2.message_ids)).flatten
        = M.map (fun m => toString m.message_id) ∧
    (chunkWindows w M).flatten = M ∧
    (∀ c ∈ (chunkWindows w M).dropLast, c.length = w) ∧
    (∀ c ∈ chunkWindows w M, c ≠ [] ∧ c.length ≤ w) := by
  refine ⟨?_, chunkWindows_flatten w hw M, chunkWindows_dropLast_length w hw M,
    chunkWindows_mem w hw M⟩
  have h1 : (chunk_conversation M w).map (fun c => c.2.message_ids)
      = (chunkWindows w M).map (List.map (fun m => toString m.message_id)) := by
    unfold chunk_conversation
    rw [List.map_map]
    apply List.map_congr_left
    intro c _
    rfl
  rw [h1, ← List.map_flatten, chunkWindows_flatten w hw M]

/-- Witness for C5 at the twelve-message fixture with window size 5. -/
theorem C5_chunking_partition_witness :
    ((chunk_conversation msgs12 5).map (fun c => c.2.message_ids)).flatten
        = msgs12.map (fun m => toString m.message_id) :=
  (C5_chunking_partition msgs12 5 (by decide)).1

/-- C4: on a ledger with one session holding twelve pending messages all
older than the staleness threshold, one pipeline run with window size 5
produces exactly three chunks with id lists of sizes 5, 5 and 2, marks all
twelve messages embedded, and finishes the job record with twelve messages
processed and status completed. -/
theorem C4_twelve_pending_three_chunks :
    (run_embedding_job true 10000 99 st12).2.map (fun c => c.2.message_ids) =
        [["1", "2", "3", "4", "5"], ["6", "7", "8", "9", "10"], ["11", "12"]] ∧
    (run_embedding_job true 10000 99 st12).2.map (fun c => c.2.message_ids.length)
        = [5, 5, 2] ∧
    (run_embedding_job true 10000 99 st12).1.messages
        = msgs12.map (fun m => { m with embedding_status := "embedded" }) ∧
    (run_embedding_job true 10000 99 st12).1.jobs
        = [⟨99, 10000, some 10000, "completed", 12, none⟩] := by decide

/- ----------------------------------------------------------------- -/
/- lemmas about the selection query -/
/- ----------------------------------------------------------------- -/

theorem mem_insertByTimestamp (m x : MessageRow) (l : List MessageRow) :
    x ∈ insertByTimestamp m l ↔ x = m ∨ x ∈ l := by
  induction l with
  | nil => simp [insertByTimestamp]
  | cons y ys ih =>
      by_cases h : m.timestamp < y.timestamp
      · simp [insertByTimestamp, h]
      · simp [insertByTimestamp, h, ih]
        tauto

theorem mem_sortByTimestamp (m : MessageRow) (msgs : List MessageRow) :
    m ∈ sortByTimestamp msgs ↔ m ∈ msgs := by
  unfold sortByTimestamp
  induction msgs with
  | nil => simp
  | cons y ys ih =>
      simp only [List.foldr_cons, mem_insertByTimestamp, ih, List.mem_cons]

/-- C6 (amended): the messages selected by a pipeline run are exactly the
rows of the messages table that are pending and strictly older than the
one-hour staleness threshold — the source compares the timestamp strictly
against the cutoff, so a message whose age is exactly one hour is NOT
selected; no embedded or failed message is ever selected. -/
theorem C6_selection_strictly_older (now : Nat) (st : DBState) (m : MessageRow)
    (hnow : 3600 ≤ now) :
    m ∈ selectPendingMessages now st.messages ↔
      (m ∈ st.messages ∧ m.embedding_status = "pending" ∧ 3600 < now - m.timestamp) := by
  unfold selectPendingMessages
  rw [mem_sortByTimestamp, List.mem_filter]
  unfold staleSelectable
  simp only [Bool.and_eq_true, beq_iff_eq, decide_eq_true_eq]
  constructor
  · rintro ⟨h1, h2, h3⟩
    exact ⟨h1, h2, by omega⟩
  · rintro ⟨h1, h2, h3⟩
    exact ⟨h1, ⟨h2, by omega⟩⟩

/-- Witness for C6 at a concrete ledger: a pending message of age 7200
seconds is selected at time 7200. -/
theorem C6_selection_strictly_older_witness :
    mSel ∈ selectPendingMessages 7200 stSel.messages :=
  (C6_selection_strictly_older 7200 stSel mSel (by decide)).mpr (by decide)

/-- Counterexample to C6 as stated: a pending message whose age equals the
threshold exactly (timestamp 3600 at time 7200, age 3600 = threshold) is
claimed selected but the code does not select it. -/
theorem C6_boundary_not_selected :
    mBoundary.embedding_status = "pending" ∧
    mBoundary ∈ stBoundary.messages ∧
    3600 ≤ 7200 - mBoundary.timestamp ∧
    mBoundary ∉ selectPendingMessages 7200 stBoundary.messages := by decide

/- ----------------------------------------------------------------- -/
/- lemmas about marking and the per-session loop -/
/- ----------------------------------------------------------------- -/

theorem markEmbedded_nil (msgs : List MessageRow) : markEmbedded [] msgs = msgs := by
  unfold markEmbedded
  simp

theorem markEmbedded_markEmbedded (ids1 ids2 : List Nat) (msgs : List MessageRow) :
    markEmbedded ids2 (markEmbedded ids1 msgs) = markEmbedded (ids1 ++ ids2) msgs := by
  unfold markEmbedded
  rw [List.map_map]
  apply List.map_congr_left
  intro m _
  by_cases h1 : m.message_id ∈ ids1 <;> by_cases h2 : m.message_id ∈ ids2 <;>
    simp [h1, h2, Function.comp, List.mem_append]

theorem mem_markEmbedded (ids : List Nat) (msgs : List MessageRow) (m : MessageRow)
    (hm : m ∈ markEmbedded ids msgs) :
    ∃ m0 ∈ msgs,
      m = (if m0.message_id ∈ ids then { m0 with embedding_status := "embedded" } else m0) := by
  unfold markEmbedded at hm
  rcases List.mem_map.mp hm with ⟨m0, hm0, rfl⟩
  exact ⟨m0, hm0, rfl⟩

theorem chunk_conversation_ne_nil (msgs : List MessageRow) (h : msgs ≠ []) :
    (chunk_conversation msgs 5).isEmpty = false := by
  unfold chunk_conversation
  have := chunkWindows_ne_nil 5 (by omega) msgs h
  cases hcw : chunkWindows 5 msgs with
  | nil => exact absurd hcw this
  | cons c cs => simp

theorem foldl_processSession_fst (gs : List (Nat × List MessageRow)) :
    ∀ (msgs : List MessageRow) (us : List (String × ChunkMeta)) (t : Nat),
      (gs.foldl processSession (msgs, us, t)).1 = markEmbedded (groupIds gs) msgs := by
  induction gs with
  | nil =>
      intro msgs us t
      simp [groupIds, markEmbedded_nil]
  | cons g gs ih =>
      intro msgs us t
      rw [List.foldl_cons]
      rcases eq_or_ne g.2 [] with hg | hg
      · have hstep : processSession (msgs, us, t) g = (msgs, us, t) := by
          unfold processSession
          simp [hg, chunk_conversation, chunkWindows, chunkWindowsAux]
        rw [hstep, ih]
        simp [groupIds, hg]
      · have hstep : processSession (msgs, us, t) g =
            (markEmbedded (g.2.map (fun m => m.message_id)) msgs,
             us ++ chunk_conversation g.2 5, t + g.2.length) := by
          unfold processSession
          simp [chunk_conversation_ne_nil g.2 hg]
        rw [hstep, ih, markEmbedded_markEmbedded]
        simp [groupIds]

/- ----------------------------------------------------------------- -/
/- lemmas about grouping by session -/
/- ----------------------------------------------------------------- -/

theorem sessionOrder_foldl_sub (l : List MessageRow) :
    ∀ (acc : List Nat) (a : Nat), a ∈ acc → a ∈ l.foldl sessionStep acc := by
  induction l with
  | nil => intro acc a h; simpa using h
  | cons y ys ih =>
      intro acc a h
      rw [List.foldl_cons]
      apply ih
      unfold sessionStep
      by_cases hy : y.session_id ∈ acc
      · simpa [hy] using h
      · simp [hy, List.mem_append]
        left
        exact h

theorem sessionOrder_foldl_mem (l : List MessageRow) :
    ∀ (acc : List Nat) (m : MessageRow), m ∈ l → m.session_id ∈ l.foldl sessionStep acc := by
  induction l with
  | nil => intro acc m h; simp at h
  | cons y ys ih =>
      intro acc m h
      rw [List.foldl_cons]
      rcases List.mem_cons.mp h with h | h
      · subst h
        apply sessionOrder_foldl_sub
        unfold sessionStep
        by_cases hy : m.session_id ∈ acc
        · simp [hy]
        · simp [hy]
      · exact ih _ m h

theorem mem_sessionOrder (msgs : List MessageRow) (m : MessageRow) (hm : m ∈ msgs) :
    m.session_id ∈ sessionOrder msgs :=
  sessionOrder_foldl_mem msgs [] m hm

theorem mem_groupIds_of_mem (pending : List MessageRow) (m : MessageRow)
    (hm : m ∈ pending) :
    m.message_id ∈ groupIds (groupBySession pending) := by
  unfold groupIds groupBySession
  rw [List.mem_flatten]
  refine ⟨(pending.filter (fun x => x.session_id == m.session_id)).map
      (fun x => x.message_id), ?_, ?_⟩
  · rw [List.map_map, List.mem_map]
    exact ⟨m.session_id, mem_sessionOrder pending m hm, rfl⟩
  · rw [List.mem_map]
    exact ⟨m, List.mem_filter.mpr ⟨hm, by simp⟩, rfl⟩

/- ----------------------------------------------------------------- -/
/- lemmas about whole pipeline runs -/
/- ----------------------------------------------------------------- -/

theorem selectPending_of_filter_nil (now : Nat) (msgs : List MessageRow)
    (h : msgs.filter (staleSelectable now) = []) :
    selectPendingMessages now msgs = [] := by
  unfold selectPendingMessages
  rw [h]
  rfl

theorem select_after_markAll (now : Nat) (msgs : List MessageRow) :
    selectPendingMessages now
      (markEmbedded (groupIds (groupBySession (selectPendingMessages now msgs)))
        msgs) = [] := by
  apply selectPending_of_filter_nil
  rw [List.filter_eq_nil_iff]
  intro m hm
  rcases mem_markEmbedded _ _ _ hm with ⟨m0, hm0, heq⟩
  by_cases hid : m0.message_id ∈ groupIds (groupBySession (selectPendingMessages now msgs))
  · rw [heq]
    simp only [hid, if_true]
    unfold staleSelectable
    simp
  · rw [heq]
    simp only [hid, if_false]
    intro hsel
    apply hid
    apply mem_groupIds_of_mem
    unfold selectPendingMessages
    rw [mem_sortByTimestamp]
    exact List.mem_filter.mpr ⟨hm0, hsel⟩

theorem run_embedding_job_messages (now jobId : Nat) (st : DBState) :
    (run_embedding_job true now jobId st).1.messages =
      markEmbedded (groupIds (groupBySession (selectPendingMessages now st.messages)))
        st.messages := by
  unfold run_embedding_job
  by_cases h : (selectPendingMessages now st.messages).isEmpty
  · have hnil : selectPendingMessages now st.messages = [] := List.isEmpty_iff.mp h
    rw [hnil]
    simp [groupBySession, sessionOrder, groupIds, markEmbedded_nil]
  · have h' : (selectPendingMessages now st.messages).isEmpty = false := by
      simpa using h
    simp only [h', Bool.false_eq_true, if_false]
    simp only [show (true = false) = False by simp, if_false]
    rw [foldl_processSession_fst]

theorem select_after_run (now jobId : Nat) (st : DBState) :
    selectPendingMessages now ((run_embedding_job true now jobId st).1.messages) = [] := by
  rw [run_embedding_job_messages]
  exact select_after_markAll now st.messages

theorem run_embedding_job_no_pending (apiOk : Bool) (now jobId : Nat) (st : DBState)
    (h : selectPendingMessages now st.messages = []) :
    run_embedding_job apiOk now jobId st =
      ({ st with jobs := st.jobs ++ [⟨jobId, now, some now, "completed", 0, none⟩] },
       []) := by
  unfold run_embedding_job
  simp [h, newEmbeddingJob]

/-- C9: a pipeline run in which no message is both pending and older than
the staleness threshold still creates a job record and finishes it with
status completed, a non-null completion time and zero messages processed,
changes nothing else in the database, and performs no embedding-function or
vector-index call (the upsert list is empty). The early return happens
before the API keys are even read, so this holds whether or not the
external services are available. -/
theorem C9_empty_run_completed (apiOk : Bool) (now jobId : Nat) (st : DBState)
    (h : selectPendingMessages now st.messages = []) :
    run_embedding_job apiOk now jobId st =
      ({ st with jobs := st.jobs ++ [⟨jobId, now, some now, "completed", 0, none⟩] },
       []) :=
  run_embedding_job_no_pending apiOk now jobId st h

/-- Witness for C9 on the empty database, with the external services
unavailable. -/
theorem C9_empty_run_completed_witness :
    run_embedding_job false 50 7 dbEmpty =
      ({ dbEmpty with jobs := [⟨7, 50, some 50, "completed", 0, none⟩] }, []) := by
  rw [C9_empty_run_completed false 50 7 dbEmpty (by decide)]
  decide

/-- C7: running the pipeline twice in immediate succession with no new
messages embeds nothing the second time: after a successful first run no
message is both pending and older than the threshold, so the second run
selects nothing, sends nothing to the vector index (hence never calls the
embedding function), leaves the messages table unchanged and completes its
job record with zero messages processed. -/
theorem C7_second_run_noop (now j1 j2 : Nat) (st : DBState) :
    selectPendingMessages now ((run_embedding_job true now j1 st).1.messages) = [] ∧
    run_embedding_job true now j2 (run_embedding_job true now j1 st).1 =
      ({ (run_embedding_job true now j1 st).1 with
          jobs := (run_embedding_job true now j1 st).1.jobs ++
            [⟨j2, now, some now, "completed", 0, none⟩] },
       []) :=
  ⟨select_after_run now j1 st,
   run_embedding_job_no_pending true now j2 _ (select_after_run now j1 st)⟩

/- ----------------------------------------------------------------- -/
/- personality compiler claims -/
/- ----------------------------------------------------------------- -/

/-- C1 (amended): compiling a structured personality in which only name,
role and core_identity are set — communication_style absent or empty, the
anchor-phrase and example-response lists absent or empty, and
behavioral_guidelines absent — yields exactly the identity line, the
core-identity paragraph, and one empty Communication style header: the
source emits that header unconditionally, so it appears even though its
section is empty, and no other section header appears. -/
theorem C1_minimal_template_prompt (pm : PersonalityManagerState) (pid : String)
    (d : TemplateData) (path : String)
    (hfind : lookupP pm.personalities pid = some ⟨.template d, path⟩)
    (hcs : d.communication_style = [])
    (hap : d.anchor_phrases = none ∨ d.anchor_phrases = some [])
    (hbg : d.behavioral_guidelines = none)
    (her : d.example_responses = none ∨ d.example_responses = some []) :
    create_system_prompt pm (some pid) =
      .ok ("You are " ++ d.name ++ ", " ++ d.role ++ ".\n\n" ++ d.core_identity
           ++ "\n\n" ++ "Communication style:\n" ++ "\n") := by
  unfold create_system_prompt get_personality
  dsimp only
  rw [hfind]
  unfold renderTemplate
  rcases hap with hap | hap <;> rcases her with her | her <;>
    simp [hcs, hap, hbg, her, renderKVLines, String.join, Except.map]

/-- Witness for C1 at the minimal fixture personality. -/
theorem C1_minimal_template_prompt_witness :
    create_system_prompt pmAda (some "ada") =
      .ok "You are Ada, a helpful assistant.\n\nYou value clarity.\n\nCommunication style:\n\n" := by
  rw [C1_minimal_template_prompt pmAda "ada" dMinimal "personalities/ada.json"
    (by decide) rfl (Or.inl rfl) rfl (Or.inl rfl)]
  decide

/-- Counterexample to C1 as stated: for the minimal structured personality
the compiled prompt is NOT just the identity line plus the core-identity
paragraph; it additionally contains a Communication style header. -/
theorem C1_communication_style_header_present :
    create_system_prompt pmAda (some "ada") ≠
      .ok "You are Ada, a helpful assistant.\n\nYou value clarity.\n\n" ∧
    create_system_prompt pmAda (some "ada") =
      .ok "You are Ada, a helpful assistant.\n\nYou value clarity.\n\nCommunication style:\n\n" ∧
    strContains
      "You are Ada, a helpful assistant.\n\nYou value clarity.\n\nCommunication style:\n\n"
      "Communication style:" = true := by decide

/-- C2 (amended): adding a personality whose structured (.json) content is
malformed fails with the invalid-definition error and leaves the in-memory
personality index unchanged, but it does NOT leave the definitions
directory unchanged: the file has already been copied there when the
validation failure is raised. -/
theorem C2_invalid_json_add (parse : String → Option TemplateData)
    (st : ManagerWithDir) (src : SourceFile) (dirName : String)
    (hjson : src.suffix = ".json") (hbad : parse src.content = none) :
    add_personality parse st true src dirName =
      ({ st with dirFiles := writeFile st.dirFiles (src.stem ++ src.suffix) src.content },
       .error ("Invalid JSON in personality file: "
               ++ (dirName ++ "/" ++ (src.stem ++ src.suffix)))) := by
  unfold add_personality load_personality_file
  simp [hjson, hbad]

/-- Witness for C2 at a concrete malformed file. -/
theorem C2_invalid_json_add_witness :
    add_personality parseNone mgr0 true srcBad "personalities" =
      (⟨[("bad.json", "not json")], ⟨[], none⟩⟩,
       .error "Invalid JSON in personality file: personalities/bad.json") := by
  rw [C2_invalid_json_add parseNone mgr0 srcBad "personalities" rfl rfl]
  decide

/-- Counterexample to C2 as stated: the add fails with the invalid-JSON
error and the index stays empty, yet the definitions directory has gained
the file — so the operation is not free of partial state changes. -/
theorem C2_file_persisted_on_failure :
    (add_personality parseNone mgr0 true srcBad "personalities").2 =
      .error "Invalid JSON in personality file: personalities/bad.json" ∧
    (add_personality parseNone mgr0 true srcBad "personalities").1.pm = mgr0.pm ∧
    (add_personality parseNone mgr0 true srcBad "personalities").1.dirFiles ≠ mgr0.dirFiles := by
  decide

/-- C10: when no file of the personalities directory is loadable (wrong
extension, or a .json whose content the decoder rejects), start-up leaves
the index empty and the default personality unset, and every subsequent get
or prompt compilation with no personality id fails with the not-found
error — there is no built-in fallback prompt. -/
theorem C10_empty_directory_no_default (parse : String → Option TemplateData)
    (dirName : String) (files : List SourceFile)
    (h : ∀ f ∈ files, allowedSuffix f.suffix = false ∨
          (f.suffix = ".json" ∧ parse f.content = none)) :
    load_personalities parse dirName files = ⟨[], none⟩ ∧
    get_personality (load_personalities parse dirName files) none
        = .error "Personality not found: None" ∧
    create_system_prompt (load_personalities parse dirName files) none
        = .error "Personality not found: None" := by
  have hempty : load_personalities parse dirName files = ⟨[], none⟩ := by
    unfold load_personalities
    induction files with
    | nil => rfl
    | cons f fs ih =>
        have hf := h f (List.mem_cons_self f fs)
        have hstep : loadStep parse dirName ⟨[], none⟩ f = ⟨[], none⟩ := by
          unfold loadStep load_personality_file
          rcases hf with hf | ⟨hf1, hf2⟩
          · simp [hf]
          · simp [hf1, hf2, allowedSuffix]
        rw [List.foldl_cons, hstep]
        exact ih (fun g hg => h g (List.mem_cons_of_mem f hg))
  refine ⟨hempty, ?_, ?_⟩ <;> rw [hempty] <;> rfl

/-- Witness for C10: a directory holding only one malformed .json file. -/
theorem C10_empty_directory_no_default_witness :
    get_personality (load_personalities parseNone "personalities" [srcBad]) none
        = .error "Personality not found: None" :=
  (C10_empty_directory_no_default parseNone "personalities" [srcBad] (by decide)).2.1

/- ----------------------------------------------------------------- -/
/- lemmas about the conversation endpoint -/
/- ----------------------------------------------------------------- -/

theorem resolveSession_state (st : DBState) (session_arg : Option (Option Nat))
    (freshSid now : Nat) (st1 : DBState) (sid : Nat)
    (h : resolveSession st session_arg freshSid now = .ok (st1, sid)) :
    st1.messages = st.messages ∧ st1.jobs = st.jobs := by
  unfold resolveSession at h
  rcases session_arg with _ | sid?
  · dsimp only at h
    simp only [Except.ok.injEq, Prod.mk.injEq] at h
    obtain ⟨rfl, rfl⟩ := h
    exact ⟨rfl, rfl⟩
  · rcases sid? with _ | s
    · exact Except.noConfusion h
    · dsimp only at h
      rcases hfind : findSession st.sessions s with _ | t <;> rw [hfind] at h <;>
        simp only [Except.ok.injEq, Prod.mk.injEq] at h <;>
        obtain ⟨rfl, rfl⟩ := h <;> exact ⟨rfl, rfl⟩

theorem commitSessionUpdate_messages (st1 : DBState) (sid now : Nat)
    (rp : Option String) :
    (commitSessionUpdate st1 sid now rp).1.messages = st1.messages := by
  unfold commitSessionUpdate
  cases rp <;> rfl

/-- C8: the user and assistant rows of a turn are committed as a pair — a
successful conversation call appends exactly the user message and the
assistant message to the ledger, and any failing call (invalid session,
unknown personality, or a failed LLM call) surfaces an error and appends
nothing: no reachable outcome records exactly one of the two turn
messages. -/
theorem C8_turn_atomicity (pm : PersonalityManagerState)
    (llm : String → Except String String) (docs : List String)
    (req : QueryRequest) (session_arg : Option (Option Nat))
    (freshSid now umId amId : Nat) (st : DBState) :
    (∃ out, (conversation pm llm docs req session_arg freshSid now umId amId st).2
          = .ok out ∧
        (conversation pm llm docs req session_arg freshSid now umId amId st).1.messages
          = st.messages ++
            [⟨umId, out.session_id, "user", req.query, now, "pending"⟩,
             ⟨amId, out.session_id, "assistant", out.response, now, "pending"⟩]) ∨
    (∃ e, (conversation pm llm docs req session_arg freshSid now umId amId st).2
          = .error e ∧
        (conversation pm llm docs req session_arg freshSid now umId amId st).1.messages
          = st.messages) := by
  unfold conversation
  cases hres : resolveSession st session_arg freshSid now with
  | error e =>
      right
      dsimp only
      exact ⟨_, rfl, rfl⟩
  | ok pair =>
      obtain ⟨st1, sid⟩ := pair
      have hm1 : st1.messages = st.messages :=
        (resolveSession_state st session_arg freshSid now st1 sid hres).1
      have hm2 : (commitSessionUpdate st1 sid now req.personality_id).1.messages
          = st1.messages := commitSessionUpdate_messages st1 sid now req.personality_id
      dsimp only
      unfold conversationTurn
      cases hans : chainAnswer pm llm docs req.query
          (recentMessages (commitSessionUpdate st1 sid now req.personality_id).1.messages sid 10)
          (resolvedPersonality (commitSessionUpdate st1 sid now req.personality_id).2 req) with
      | error e =>
          right
          dsimp only
          refine ⟨"Error in conversation: " ++ e, rfl, ?_⟩
          rw [hm2, hm1]
      | ok ans =>
          left
          dsimp only
          refine ⟨⟨ans, sid, docs⟩, rfl, ?_⟩
          rw [hm2, hm1]

theorem findSession_append_fresh (l : List SessionRow) (s : SessionRow)
    (h : ∀ t ∈ l, t.session_id ≠ s.session_id) :
    findSession (l ++ [s]) s.session_id = some s := by
  unfold findSession
  rw [List.find?_append]
  have h1 : l.find? (fun t => t.session_id == s.session_id) = none :=
    List.find?_eq_none.mpr (fun t ht => by simp [h t ht])
  rw [h1]
  simp

theorem map_id_of_mem_eq {l : List SessionRow} (f : SessionRow → SessionRow)
    (h : ∀ t ∈ l, f t = t) : l.map f = l := by
  induction l with
  | nil => rfl
  | cons y ys ih =>
      rw [List.map_cons, h y (List.mem_cons_self y ys),
        ih (fun t ht => h t (List.mem_cons_of_mem y ht))]

theorem updateSession_append_fresh (l : List SessionRow) (s s2 : SessionRow)
    (h : ∀ t ∈ l, t.session_id ≠ s.session_id) (hid : s2.session_id = s.session_id) :
    updateSession (l ++ [s]) s2 = l ++ [s2] := by
  unfold updateSession
  rw [List.map_append]
  congr 1
  · apply map_id_of_mem_eq
    intro t ht
    have hne : (t.session_id == s2.session_id) = false := by
      rw [beq_eq_false_iff_ne, hid]
      exact h t ht
    rw [hne]
    rfl
  · have hbeq : (s.session_id == s2.session_id) = true := by
      rw [beq_iff_eq, hid]
    rw [List.map_cons]
    rw [hbeq]
    rfl

/-- C3 (amended): a query naming an unknown personality, issued without a
session id, fails with the wrapped personality-not-found error and appends
no message rows — but it does NOT leave the ledger untouched: a session row
has already been created and committed (with its last-active time set and
the unknown personality id stored in its metadata) before the personality
lookup raises. -/
theorem C3_unknown_personality_session_committed (pm : PersonalityManagerState)
    (llm : String → Except String String) (docs : List String)
    (req : QueryRequest) (freshSid now umId amId : Nat) (st : DBState) (p : String)
    (hp : req.personality_id = some p)
    (hunknown : lookupP pm.personalities p = none)
    (hfresh : ∀ s ∈ st.sessions, s.session_id ≠ freshSid) :
    conversation pm llm docs req none freshSid now umId amId st =
      ({ st with sessions :=
            st.sessions ++ [⟨freshSid, none, now, now, [("personality_id", p)]⟩] },
       .error ("Error in conversation: " ++ ("Personality not found: " ++ p))) := by
  unfold conversation resolveSession
  dsimp only
  have hcommit : commitSessionUpdate
      { st with sessions := st.sessions ++ [⟨freshSid, none, now, now, []⟩] }
      freshSid now req.personality_id =
      ({ st with sessions :=
            st.sessions ++ [⟨freshSid, none, now, now, [("personality_id", p)]⟩] },
       ⟨freshSid, none, now, now, [("personality_id", p)]⟩) := by
    unfold commitSessionUpdate
    rw [hp]
    dsimp only
    rw [show findSession (st.sessions ++ [⟨freshSid, none, now, now, []⟩]) freshSid
          = some ⟨freshSid, none, now, now, []⟩ from
        findSession_append_fresh st.sessions ⟨freshSid, none, now, now, []⟩ hfresh]
    simp only [Option.getD_some]
    rw [show updateSession
          (st.sessions ++ [⟨freshSid, none, now, now, []⟩])
          ⟨freshSid, none, now, now, setMeta [] "personality_id" p⟩
          = st.sessions ++ [⟨freshSid, none, now, now, setMeta [] "personality_id" p⟩] from
        updateSession_append_fresh st.sessions ⟨freshSid, none, now, now, []⟩
          ⟨freshSid, none, now, now, setMeta [] "personality_id" p⟩ hfresh rfl]
    simp [setMeta]
  rw [hcommit]
  unfold conversationTurn
  have hresolved : resolvedPersonality
      (⟨freshSid, none, now, now, [("personality_id", p)]⟩ : SessionRow) req = some p := by
    unfold resolvedPersonality getMeta
    simp
  rw [hresolved]
  unfold chainAnswer create_system_prompt get_personality
  dsimp only
  rw [hunknown]
  rfl

/-- Witness for C3 at concrete values: empty manager, unknown id ghost,
fresh session 7 at time 100 on the empty database. -/
theorem C3_unknown_personality_session_committed_witness :
    conversation pmEmptyM llmOk [] reqGhost none 7 100 101 102 dbEmpty =
      ({ dbEmpty with sessions := [⟨7, none, 100, 100, [("personality_id", "ghost")]⟩] },
       .error "Error in conversation: Personality not found: ghost") := by
  rw [C3_unknown_personality_session_committed pmEmptyM llmOk [] reqGhost
    7 100 101 102 dbEmpty "ghost" rfl rfl (by decide)]
  decide

/-- Counterexample to C3 as stated: the query with the unknown personality
does fail and appends no messages, but the sessions table has changed — a
ledger write has happened. -/
theorem C3_session_write_on_unknown_personality :
    (conversation pmEmptyM llmOk [] reqGhost none 7 100 101 102 dbEmpty).2 =
      .error "Error in conversation: Personality not found: ghost" ∧
    (conversation pmEmptyM llmOk [] reqGhost none 7 100 101 102 dbEmpty).1.messages
      = dbEmpty.messages ∧
    (conversation pmEmptyM llmOk [] reqGhost none 7 100 101 102 dbEmpty).1.sessions
      ≠ dbEmpty.sessions := by decide
